import Mathlib

/-!
Shallow embedding of the Omers_stocks day-trade bot
(`src/daytradebot/rick.py`, `src/daytradebot/strategies_momentum.py`,
`src/daytradebot/bot.py`) over exact rational arithmetic, together with
theorems settling the specification claims about it.
-/

namespace DayTradeBot

/-- The literal `1e-12` appearing in the Python source, as an exact rational. -/
def eps12 : ℚ := 1 / 1000000000000

/-- Python `int(x)` truncates toward zero. -/
def pyInt (q : ℚ) : ℤ := if 0 ≤ q then ⌊q⌋ else ⌈q⌉

/-- `rick.position_size`: `risk_per_share = max(0.01, entry - stop)`,
`risk_dollars = max(0.0, equity * r_pct)`,
`int(risk_dollars / risk_per_share) if risk_per_share > 0 else 0`. -/
def position_size (entry stop equity r_pct : ℚ) : ℤ :=
  let risk_per_share := max (1/100) (entry - stop)
  let risk_dollars := max 0 (equity * r_pct)
  if 0 < risk_per_share then pyInt (risk_dollars / risk_per_share) else 0

/-- `rick.immediate_stop_hit`: `price <= entry * (1 - max_loss_pct + 1e-12)`. -/
def immediate_stop_hit (price entry max_loss_pct : ℚ) : Bool :=
  decide (price ≤ entry * (1 - max_loss_pct + eps12))

/-! ## Candlestick anatomy (`strategies_momentum.py`) -/

/-- `_body(o, c) = (c - o).abs()`. -/
def _body (o c : ℚ) : ℚ := |c - o|

/-- `_range(h, l) = (h - l).abs()`. -/
def _range (h l : ℚ) : ℚ := |h - l|

/-- `_upper(o, h, c) = h - maximum(o, c)`. -/
def _upper (o h c : ℚ) : ℚ := h - max o c

/-- `_lower(o, l, c) = minimum(o, c) - l`. -/
def _lower (o l c : ℚ) : ℚ := min o c - l

/-- `is_doji(o, h, l, c, body_pct)`: `(rng > 0) & (body <= rng * body_pct)`. -/
def is_doji (o h l c body_pct : ℚ) : Bool :=
  decide (0 < _range h l) && decide (_body o c ≤ _range h l * body_pct)

/-- `is_hammer(o, h, l, c, body_max_pct=0.35, lower_to_body_min=2.0, upper_max_pct=0.25)`. -/
def is_hammer (o h l c : ℚ) : Bool :=
  let rng := _range h l
  let body := _body o c
  let upper := _upper o h c
  let lower := _lower o l c
  decide (body ≤ rng * (7/20)) &&
  decide (2 * (body + eps12) ≤ lower) &&
  decide (upper ≤ rng * (1/4)) &&
  decide (h - rng * (1/4) ≤ max o c)

/-- `is_inverted_hammer(o, h, l, c, body_max_pct=0.35, upper_to_body_min=2.0, lower_max_pct=0.25)`. -/
def is_inverted_hammer (o h l c : ℚ) : Bool :=
  let rng := _range h l
  let body := _body o c
  let upper := _upper o h c
  let lower := _lower o l c
  decide (body ≤ rng * (7/20)) &&
  decide (2 * (body + eps12) ≤ upper) &&
  decide (lower ≤ rng * (1/4)) &&
  decide (min o c ≤ l + rng * (1/4))

/-- `is_shooting_star` delegates to `is_inverted_hammer` with the same defaults. -/
def is_shooting_star (o h l c : ℚ) : Bool := is_inverted_hammer o h l c

/-- `bullish_engulfing(prev_o, prev_c, o, c)`:
`(c > o) & (prev_c < prev_o) & (o <= prev_c) & (c >= prev_o)`. -/
def bullish_engulfing (prev_o prev_c o c : ℚ) : Bool :=
  decide (o < c) && decide (prev_c < prev_o) && decide (o ≤ prev_c) && decide (prev_o ≤ c)

/-- `bearish_engulfing(prev_o, prev_c, o, c)`:
`(c < o) & (prev_c > prev_o) & (o >= prev_c) & (c <= prev_o)`. -/
def bearish_engulfing (prev_o prev_c o c : ℚ) : Bool :=
  decide (c < o) && decide (prev_o < prev_c) && decide (prev_c ≤ o) && decide (c ≤ prev_o)

/-! ## Bars and indicator columns

A row of the augmented dataframe: OHLC prices are actual numbers, the
indicator columns (`macd_line`, `macd_signal`, `cci`) may be NaN, modelled
as `Option ℚ` with `none` for NaN. -/

structure Bar where
  o : ℚ
  h : ℚ
  l : ℚ
  c : ℚ
  macd_line : Option ℚ
  macd_signal : Option ℚ
  cci_v : Option ℚ
  deriving Repr, DecidableEq

/-- A pandas comparison `a > b`: NaN on either side yields `False`. -/
def optGT (a b : Option ℚ) : Bool :=
  match a, b with
  | some x, some y => decide (y < x)
  | _, _ => false

/-- The bar one position back (`shift(1)` at row `i`): `none` off the start. -/
def prevBar (bars : List Bar) (i : ℕ) : Option Bar :=
  if i = 0 then none else bars[i-1]?

/-- The bar two positions back (`shift(1).shift(1)` at row `i`). -/
def prev2Bar (bars : List Bar) (i : ℕ) : Option Bar :=
  if i ≤ 1 then none else bars[i-2]?

/-- `momentum_entries` of `strategies_momentum.py`, evaluated at row `i`.
Pattern predicates applied to shifted series produce `False` wherever a
shifted operand is NaN (pandas comparisons with NaN are `False`); the final
`.fillna(False)` is the identity because every conjunct is already boolean. -/
def momentum_entries (bars : List Bar) (doji_body_pct cci_entry : ℚ)
    (confirm_break_high use_doji use_hammer use_inv_hammer use_bull_engulf : Bool)
    (i : ℕ) : Bool :=
  match bars[i]? with
  | none => false
  | some bar =>
    let patt_prev :=
      (use_doji && (match prevBar bars i with
        | some p => is_doji p.o p.h p.l p.c doji_body_pct
        | none => false)) ||
      (use_hammer && (match prevBar bars i with
        | some p => is_hammer p.o p.h p.l p.c
        | none => false)) ||
      (use_inv_hammer && (match prevBar bars i with
        | some p => is_inverted_hammer p.o p.h p.l p.c
        | none => false)) ||
      (use_bull_engulf && (match prev2Bar bars i, prevBar bars i with
        | some p2, some p => bullish_engulfing p2.o p2.c p.o p.c
        | _, _ => false))
    let cond := patt_prev && optGT bar.macd_line bar.macd_signal
      && optGT bar.cci_v (some cci_entry)
    if confirm_break_high then
      cond && (match prevBar bars i with
        | some p => decide (p.h < bar.c)
        | none => false)
    else cond

/-! ## `cci` (`strategies_momentum.py` lines 21-25) -/

/-- Typical price `(high + low + close) / 3`. -/
def tp (b : Bar) : ℚ := (b.h + b.l + b.c) / 3

/-- `rolling(n).mean()` at row `i` over a series that may contain NaN:
defined exactly when the window of the last `n` values exists and is
NaN-free. -/
def rollMeanOpt (xs : List (Option ℚ)) (n i : ℕ) : Option ℚ :=
  if n ≤ i + 1 ∧ i < xs.length then
    let window := (xs.drop (i + 1 - n)).take n
    if window.all Option.isSome then
      some ((window.map (fun x => x.getD 0)).sum / (n : ℚ))
    else none
  else none

/-- The series `tp - ma` taken absolute, row by row (`(tp - ma).abs()`). -/
def devList (bars : List Bar) (n : ℕ) : List (Option ℚ) :=
  (List.range bars.length).map (fun j =>
    match bars[j]?, rollMeanOpt (bars.map (fun b => some (tp b))) n j with
    | some b, some mj => some |tp b - mj|
    | _, _ => none)

/-- `md = (tp - ma).abs().rolling(n).mean().replace(0, 1e-12)` at row `i`. -/
def md (bars : List Bar) (n i : ℕ) : Option ℚ :=
  (rollMeanOpt (devList bars n) n i).map (fun x => if x = 0 then eps12 else x)

/-- `cci(df, n)` at row `i`: `(tp - ma) / (0.015 * md)`; NaN wherever a
rolling mean is undefined. -/
def cci (bars : List Bar) (n i : ℕ) : Option ℚ :=
  match bars[i]?, rollMeanOpt (bars.map (fun b => some (tp b))) n i, md bars n i with
  | some b, some m, some d => some ((tp b - m) / ((3/200) * d))
  | _, _, _ => none

/-! ## The trade state machine (`bot.py`, `analyze_and_trade`)

The loop body of `analyze_and_trade` as a per-bar step function. The
mutable locals `in_pos`, `entry`, `stop`, `qty`, `last_trailing` and the
mutable `STATE.max_loss_pct` form the state; everything the body reads
from the dataframe and from `STATE`/config on a given bar is a `BarInput`.
`np.isfinite(stop)` is always true over exact rationals. -/

structure TradeState where
  in_pos : Bool
  entry : ℚ
  stop : ℚ
  qty : ℤ
  last_trailing : Option ℚ
  max_loss_pct : ℚ
  deriving Repr, DecidableEq

structure BarInput where
  sig_enter : Bool
  exit_flip : Bool
  price : ℚ
  low : ℚ
  prev_low : ℚ
  ema20 : ℚ
  risk_pct : ℚ
  equity : ℚ
  tp_R : ℚ
  deriving Repr, DecidableEq

inductive TradeEvent where
  | enter
  | exitFailSafe
  | exitStop
  | exitTakeProfit
  | weakening
  | raiseStop
  deriving Repr, DecidableEq

/-- An event that ends the position (a transition to FLAT). -/
def TradeEvent.isTerminal : TradeEvent → Bool
  | .exitFailSafe => true
  | .exitStop => true
  | .exitTakeProfit => true
  | _ => false

/-- One iteration of the `async for df in PROVIDER.stream_bars` loop body
(`bot.py` lines 93-158), returning the new state and the events (Discord
messages) it emits. -/
def step (st : TradeState) (b : BarInput) : TradeState × List TradeEvent :=
  if st.in_pos = false then
    if b.sig_enter then
      let pattern_stop := b.prev_low
      let entry := b.price
      let risk_stop := entry * (1 - b.risk_pct)
      let stop := max pattern_stop risk_stop
      let qty := position_size entry stop b.equity b.risk_pct
      -- STATE.max_loss_pct is assigned (line 111) before the reject check (line 113)
      let st1 : TradeState :=
        { st with entry := entry, stop := stop, qty := qty, max_loss_pct := b.risk_pct }
      if qty ≤ 0 ∨ entry ≤ stop then (st1, [])
      else ({ st1 with in_pos := true, last_trailing := some stop }, [.enter])
    else (st, [])
  else
    if immediate_stop_hit b.price st.entry st.max_loss_pct then
      ({ st with in_pos := false }, [.exitFailSafe])
    else if b.low ≤ st.stop then
      ({ st with in_pos := false }, [.exitStop])
    else
      -- the momentum-weakening branch only sends a message (auto-exit commented out)
      let evs1 : List TradeEvent := if b.exit_flip then [.weakening] else []
      if 0 < b.tp_R ∧ st.entry + b.tp_R * (st.entry - st.stop) ≤ b.price then
        ({ st with in_pos := false }, evs1 ++ [.exitTakeProfit])
      else
        let new_trail := max st.stop b.ema20
        let doRaise := match st.last_trailing with
          | none => true
          | some lt => decide (lt < new_trail)
        if doRaise then
          ({ st with stop := new_trail, last_trailing := some new_trail },
            evs1 ++ [.raiseStop])
        else (st, evs1)

/-- Run the loop body over a list of bars, keeping only the state. -/
def run (st : TradeState) (bars : List BarInput) : TradeState :=
  bars.foldl (fun s b => (step s b).1) st

/-! ## Theorems -/

/-- C6 counterexample: the code adds a `1e-12` tolerance inside the factor,
so at `entry = 10^13`, `max_loss_fraction = 0`, `price = 10^13 + 5` the
function returns `true` although `price ≤ entry × (1 − max_loss_fraction)`
is false. -/
theorem immediate_stop_hit_epsilon_cex :
    immediate_stop_hit (10^13 + 5) (10^13) 0 = true ∧
      ¬ ((10^13 + 5 : ℚ) ≤ 10^13 * (1 - 0)) := by
  constructor
  · norm_num [immediate_stop_hit, eps12]
  · norm_num

/-- C6 (amended): `immediate_stop_hit(price, entry, max_loss_fraction)`
returns true if and only if `price ≤ entry × (1 − max_loss_fraction + 1e-12)`. -/
theorem immediate_stop_hit_iff (price entry max_loss_pct : ℚ) :
    immediate_stop_hit price entry max_loss_pct = true ↔
      price ≤ entry * (1 - max_loss_pct + eps12) := by
  simp [immediate_stop_hit]

/-- Helper: `position_size` always takes the truthy guard branch and floors a
non-negative quotient. -/
theorem position_size_eq_floor (entry stop equity r_pct : ℚ) :
    position_size entry stop equity r_pct =
      ⌊max 0 (equity * r_pct) / max (1/100) (entry - stop)⌋ := by
  have h1 : (0:ℚ) < max (1/100) (entry - stop) :=
    lt_of_lt_of_le (by norm_num) (le_max_left _ _)
  have h3 : 0 ≤ max 0 (equity * r_pct) / max (1/100) (entry - stop) :=
    div_nonneg (le_max_left _ _) h1.le
  simp only [position_size, pyInt]
  rw [if_pos h1, if_pos h3]

/-- C7: `position_size` computes `risk_per_share = max(0.01, entry − stop)`,
`risk_dollars = max(0, equity × risk_fraction)` and returns
`⌊risk_dollars / risk_per_share⌋`; in particular
`position_size 100 98 10000 0.01 = 50` and
`position_size 100 100 10000 0.01 = 10000`. -/
theorem position_size_floor (entry stop equity r_pct : ℚ) :
    position_size entry stop equity r_pct =
      ⌊max 0 (equity * r_pct) / max (1/100) (entry - stop)⌋ ∧
    position_size 100 98 10000 (1/100) = 50 ∧
    position_size 100 100 10000 (1/100) = 10000 := by
  refine ⟨position_size_eq_floor entry stop equity r_pct, ?_, ?_⟩
  · rw [position_size_eq_floor]; norm_num
  · rw [position_size_eq_floor]; norm_num

/-- C10 counterexample: with equity `−10000` (non-positive) and risk
fraction `−0.01`, the product is positive and `position_size` returns 50,
not 0. -/
theorem position_size_negative_product_cex :
    (-10000 : ℚ) ≤ 0 ∧ position_size 100 98 (-10000) (-1/100) = 50 := by
  constructor
  · norm_num
  · rw [position_size_eq_floor]; norm_num

/-- C10 (amended): `position_size` is total with a non-negative result;
`risk_per_share = max(0.01, entry − stop) ≥ 0.01 > 0`, so the guard branch
returning 0 for a non-positive `risk_per_share` is unreachable; an inverted
stop (`stop > entry`) yields a positive quantity whenever
`equity × risk_fraction ≥ 0.01`; and a non-positive product
`equity × risk_fraction` yields exactly 0. -/
theorem position_size_total (entry stop equity r_pct : ℚ) :
    (0 < max (1/100) (entry - stop)) ∧
    (0 ≤ position_size entry stop equity r_pct) ∧
    (entry < stop → 1/100 ≤ equity * r_pct →
      0 < position_size entry stop equity r_pct) ∧
    (equity * r_pct ≤ 0 → position_size entry stop equity r_pct = 0) := by
  have h1 : (0:ℚ) < max (1/100) (entry - stop) :=
    lt_of_lt_of_le (by norm_num) (le_max_left _ _)
  have h3 : 0 ≤ max 0 (equity * r_pct) / max (1/100) (entry - stop) :=
    div_nonneg (le_max_left _ _) h1.le
  refine ⟨h1, ?_, ?_, ?_⟩
  · rw [position_size_eq_floor]; exact Int.floor_nonneg.mpr h3
  · intro hinv hrisk
    rw [position_size_eq_floor]
    have hmax : max (1/100 : ℚ) (entry - stop) = 1/100 :=
      max_eq_left (by linarith)
    have hd : max 0 (equity * r_pct) = equity * r_pct :=
      max_eq_right (by linarith)
    rw [hmax, hd]
    have h5 : (1:ℚ) ≤ equity * r_pct / (1/100) := by
      rw [le_div_iff₀ (by norm_num)]; linarith
    have h6 : (1:ℤ) ≤ ⌊equity * r_pct / (1/100 : ℚ)⌋ :=
      Int.le_floor.mpr (by exact_mod_cast h5)
    exact lt_of_lt_of_le zero_lt_one h6
  · intro hnp
    rw [position_size_eq_floor]
    have hd : max 0 (equity * r_pct) = 0 := max_eq_left hnp
    rw [hd]
    simp

/-- Witness for `position_size_total`: an inverted stop with sufficient
risk budget yields a positive quantity. -/
theorem position_size_total_witness :
    0 < position_size 100 102 10000 (1/100) :=
  (position_size_total 100 102 10000 (1/100)).2.2.1 (by norm_num) (by norm_num)

/-- C8 counterexample: `is_hammer` has no zero-range guard, so a degenerate
candle with `high = low = 0` but `open = close = 1` (outside the
high-low range) satisfies it. -/
theorem is_hammer_flat_cex : is_hammer 1 0 0 1 = true := by
  norm_num [is_hammer, _range, _body, _upper, _lower, eps12]

/-- C8 (amended): for a candle whose open and close lie within
`[low, high]`, if `high = low` then every single-candle predicate
(`is_doji` for any body percentage, `is_hammer`, `is_inverted_hammer`,
`is_shooting_star`) returns false. -/
theorem flat_candle_patterns_false (o h l c body_pct : ℚ)
    (hl : h = l) (ho1 : l ≤ o) (ho2 : o ≤ h) (hc1 : l ≤ c) (hc2 : c ≤ h) :
    is_doji o h l c body_pct = false ∧ is_hammer o h l c = false ∧
    is_inverted_hammer o h l c = false ∧ is_shooting_star o h l c = false := by
  have ho : o = l := le_antisymm (hl ▸ ho2) ho1
  have hc : c = l := le_antisymm (hl ▸ hc2) hc1
  subst ho; subst hc; subst hl
  refine ⟨?_, ?_, ?_, ?_⟩
  · norm_num [is_doji, _range, _body]
  · norm_num [is_hammer, _range, _body, _upper, _lower, eps12]
  · norm_num [is_inverted_hammer, _range, _body, _upper, _lower, eps12]
  · norm_num [is_shooting_star, is_inverted_hammer, _range, _body, _upper, _lower, eps12]

/-- Witness for `flat_candle_patterns_false` at the flat candle
`o = h = l = c = 3`. -/
theorem flat_candle_patterns_false_witness :
    is_doji 3 3 3 3 (1/5) = false ∧ is_hammer 3 3 3 3 = false ∧
    is_inverted_hammer 3 3 3 3 = false ∧ is_shooting_star 3 3 3 3 = false :=
  flat_candle_patterns_false 3 3 3 3 (1/5) rfl le_rfl le_rfl le_rfl le_rfl

/-- C2: whenever the state machine accepts an entry (an `enter` event is
emitted), the recorded stop is the maximum of the previous bar's low and
`entry × (1 − risk_fraction)`; with a 1% risk fraction this is
`max(previous_low, entry × 0.99)`. -/
theorem entry_stop_policy (st : TradeState) (b : BarInput)
    (h : TradeEvent.enter ∈ (step st b).2) :
    (step st b).1.stop = max b.prev_low (b.price * (1 - b.risk_pct)) ∧
    (b.risk_pct = 1/100 →
      (step st b).1.stop = max b.prev_low (b.price * (99/100))) := by
  simp only [step] at h ⊢
  split_ifs at h ⊢ with h1 h2 h3 h4 h5 h6 h7 h8 <;>
    simp_all <;>
    norm_num

/-- Witness for `entry_stop_policy` at a concrete accepted entry. -/
theorem entry_stop_policy_witness :
    (step ⟨false, 0, 0, 0, none, 1/50⟩
        ⟨true, false, 100, 99, 98, 0, 1/100, 10000, 0⟩).1.stop =
      max 98 (100 * (1 - 1/100)) :=
  (entry_stop_policy ⟨false, 0, 0, 0, none, 1/50⟩
      ⟨true, false, 100, 99, 98, 0, 1/100, 10000, 0⟩
      (by norm_num [step, position_size_eq_floor])).1

/-- C3: while LONG, if the fail-safe condition and the structural-stop
condition both hold on the same bar, the machine exits with reason
fail-safe; in general at most one terminal transition to FLAT fires per
bar, and a firing fail-safe or structural-stop check emits nothing else
that bar (no weakening, take-profit or trailing-stop events). -/
theorem exit_priority_fail_safe (st : TradeState) (b : BarInput)
    (hpos : st.in_pos = true)
    (hhit : immediate_stop_hit b.price st.entry st.max_loss_pct = true)
    (hstop : b.low ≤ st.stop) :
    (step st b).2 = [TradeEvent.exitFailSafe] ∧ (step st b).1.in_pos = false ∧
    (∀ st2 b2,
      ((step st2 b2).2.countP (fun e => e.isTerminal) ≤ 1) ∧
      (TradeEvent.exitFailSafe ∈ (step st2 b2).2 →
        (step st2 b2).2 = [TradeEvent.exitFailSafe]) ∧
      (TradeEvent.exitStop ∈ (step st2 b2).2 →
        (step st2 b2).2 = [TradeEvent.exitStop])) := by
  refine ⟨?_, ?_, ?_⟩
  · simp [step, hpos, hhit]
  · simp [step, hpos, hhit]
  · intro st2 b2
    simp only [step]
    split_ifs <;>
      simp_all [List.countP, List.countP.go, TradeEvent.isTerminal]

/-- Witness for `exit_priority_fail_safe`: a bar whose close gaps below the
fail-safe cutoff while its low also touches the structural stop exits with
the fail-safe reason. -/
theorem exit_priority_fail_safe_witness :
    (step ⟨true, 100, 95, 10, some 95, 1/100⟩
        ⟨false, false, 0, 0, 0, 0, 1/100, 10000, 0⟩).2 =
      [TradeEvent.exitFailSafe] :=
  (exit_priority_fail_safe ⟨true, 100, 95, 10, some 95, 1/100⟩
      ⟨false, false, 0, 0, 0, 0, 1/100, 10000, 0⟩
      rfl (by norm_num [immediate_stop_hit, eps12]) (by norm_num)).1

/-- C5 counterexample: a rejected entry (computed quantity 0 because the
equity is 0) leaves the machine FLAT and emits nothing, but the
immediate-loss cutoff fraction has already been overwritten with the
per-trade risk fraction (1/50 becomes 1/100), so the state is not
unchanged. -/
theorem reject_mutates_cutoff_cex :
    (step ⟨false, 0, 0, 0, none, 1/50⟩
        ⟨true, false, 100, 99, 99, 0, 1/100, 0, 0⟩).2 = [] ∧
    (step ⟨false, 0, 0, 0, none, 1/50⟩
        ⟨true, false, 100, 99, 99, 0, 1/100, 0, 0⟩).1.in_pos = false ∧
    (step ⟨false, 0, 0, 0, none, 1/50⟩
        ⟨true, false, 100, 99, 99, 0, 1/100, 0, 0⟩).1.max_loss_pct = 1/100 ∧
    ¬ ((step ⟨false, 0, 0, 0, none, 1/50⟩
        ⟨true, false, 100, 99, 99, 0, 1/100, 0, 0⟩).1.max_loss_pct = 1/50) := by
  norm_num [step, position_size_eq_floor]

/-- C5 (amended): when an entry candidate is rejected (computed quantity
≤ 0 or entry ≤ stop; over exact rationals the stop is always finite), the
machine opens no position, emits no event, raises no error and stays FLAT
with its trailing state intact — but the immediate-loss cutoff fraction
has already been set to the per-trade risk fraction used for the rejected
candidate. -/
theorem reject_keeps_flat (st : TradeState) (b : BarInput)
    (hflat : st.in_pos = false) (hsig : b.sig_enter = true)
    (hrej : position_size b.price (max b.prev_low (b.price * (1 - b.risk_pct)))
        b.equity b.risk_pct ≤ 0 ∨
      b.price ≤ max b.prev_low (b.price * (1 - b.risk_pct))) :
    (step st b).2 = [] ∧ (step st b).1.in_pos = false ∧
    (step st b).1.max_loss_pct = b.risk_pct ∧
    (step st b).1.last_trailing = st.last_trailing := by
  simp only [step]
  split_ifs <;> simp_all

/-- Witness for `reject_keeps_flat` at the zero-equity rejected entry. -/
theorem reject_keeps_flat_witness :
    (step ⟨false, 0, 0, 0, none, 1/50⟩
        ⟨true, false, 100, 99, 99, 0, 1/100, 0, 0⟩).2 = [] ∧
    (step ⟨false, 0, 0, 0, none, 1/50⟩
        ⟨true, false, 100, 99, 99, 0, 1/100, 0, 0⟩).1.in_pos = false ∧
    (step ⟨false, 0, 0, 0, none, 1/50⟩
        ⟨true, false, 100, 99, 99, 0, 1/100, 0, 0⟩).1.max_loss_pct = 1/100 ∧
    (step ⟨false, 0, 0, 0, none, 1/50⟩
        ⟨true, false, 100, 99, 99, 0, 1/100, 0, 0⟩).1.last_trailing = none :=
  reject_keeps_flat ⟨false, 0, 0, 0, none, 1/50⟩
    ⟨true, false, 100, 99, 99, 0, 1/100, 0, 0⟩
    rfl rfl (Or.inl (by rw [position_size_eq_floor]; norm_num))

/-- Helper: a step that keeps the machine LONG never lowers the stop (the
only stop mutation while long is the trailing ratchet `max stop ema20`). -/
theorem step_stop_mono (st : TradeState) (b : BarInput)
    (h1 : st.in_pos = true) (h2 : (step st b).1.in_pos = true) :
    st.stop ≤ (step st b).1.stop := by
  simp only [step, h1] at h2 ⊢
  split_ifs at h2 ⊢ <;> simp_all

/-- Helper: running one more bar composes with `step`. -/
theorem run_take_succ (st : TradeState) (bars : List BarInput) (k : ℕ)
    (hk : k < bars.length) :
    run st (bars.take (k+1)) = (step (run st (bars.take k)) bars[k]).1 := by
  have htake : bars.take (k+1) = bars.take k ++ [bars[k]] := by
    rw [List.take_succ]
    simp [List.getElem?_eq_getElem hk]
  unfold run
  rw [htake, List.foldl_append]
  rfl

/-- C4: within a continuously-LONG position the stop is monotonically
non-decreasing: if the machine is long after every prefix of the first `j`
bars, then for `i ≤ j` the stop after bar `j` is at least the stop after
bar `i`. -/
theorem stop_monotone_while_long (st : TradeState) (bars : List BarInput)
    (i j : ℕ) (hij : i ≤ j) (hj : j ≤ bars.length)
    (hlong : ∀ k, k ≤ j → (run st (bars.take k)).in_pos = true) :
    (run st (bars.take i)).stop ≤ (run st (bars.take j)).stop := by
  induction j with
  | zero =>
    have : i = 0 := Nat.le_zero.mp hij
    subst this
    exact le_refl _
  | succ n ih =>
    rcases Nat.eq_or_lt_of_le hij with rfl | hlt
    · exact le_refl _
    · have hi_n : i ≤ n := Nat.lt_succ_iff.mp hlt
      have hn_len : n < bars.length := hj
      have hprev : (run st (bars.take i)).stop ≤ (run st (bars.take n)).stop :=
        ih hi_n (le_of_lt hn_len)
          (fun k hk => hlong k (Nat.le_succ_of_le hk))
      have hlong_n : (run st (bars.take n)).in_pos = true :=
        hlong n (Nat.le_succ n)
      have hlong_sn : (run st (bars.take (n+1))).in_pos = true :=
        hlong (n+1) le_rfl
      rw [run_take_succ st bars n hn_len] at hlong_sn ⊢
      exact le_trans hprev
        (step_stop_mono (run st (bars.take n)) bars[n] hlong_n hlong_sn)

/-- Witness for `stop_monotone_while_long`: one bar that trails the stop up
from 95 to the EMA20 value 97 while staying long. -/
theorem stop_monotone_while_long_witness :
    (run ⟨true, 100, 95, 10, some 95, 1/100⟩
        (List.take 0 [⟨false, false, 100, 96, 0, 97, 1/100, 10000, 0⟩])).stop ≤
    (run ⟨true, 100, 95, 10, some 95, 1/100⟩
        (List.take 1 [⟨false, false, 100, 96, 0, 97, 1/100, 10000, 0⟩])).stop :=
  stop_monotone_while_long ⟨true, 100, 95, 10, some 95, 1/100⟩
    [⟨false, false, 100, 96, 0, 97, 1/100, 10000, 0⟩] 0 1
    (by norm_num) (by norm_num)
    (by
      intro k hk
      interval_cases k
      · rfl
      · norm_num [run, step, immediate_stop_hit, eps12])

/-- Helper: a rolling mean over a series of non-negative defined values is
non-negative. -/
theorem rollMeanOpt_nonneg (xs : List (Option ℚ)) (n i : ℕ)
    (hpos : ∀ o ∈ xs, ∀ q : ℚ, o = some q → 0 ≤ q) (x : ℚ)
    (hx : rollMeanOpt xs n i = some x) : 0 ≤ x := by
  simp only [rollMeanOpt] at hx
  split_ifs at hx with h1 h2
  · have hxeq := Option.some.inj hx
    rw [← hxeq]
    apply div_nonneg _ (Nat.cast_nonneg n)
    apply List.sum_nonneg
    intro q hq
    obtain ⟨o, ho, rfl⟩ := List.mem_map.mp hq
    have homem : o ∈ xs :=
      List.mem_of_mem_drop (List.mem_of_mem_take ho)
    cases o with
    | none => simp
    | some q' => simpa using hpos _ homem q' rfl

/-- Helper: every defined entry of the `(tp - ma).abs()` series is
non-negative. -/
theorem devList_nonneg (bars : List Bar) (n : ℕ) :
    ∀ o ∈ devList bars n, ∀ q : ℚ, o = some q → 0 ≤ q := by
  intro o ho q hq
  unfold devList at ho
  obtain ⟨j, _, rfl⟩ := List.mem_map.mp ho
  cases hb : bars[j]? <;>
    cases hm : rollMeanOpt (bars.map (fun b => some (tp b))) n j <;>
    rw [hb, hm] at hq <;> simp at hq
  rw [← hq]
  exact abs_nonneg _

/-- C9: for window length `n ≥ 1`, `cci` is undefined for the first `n − 1`
bars of any series; and whenever the mean deviation is defined (in
particular on a perfectly flat series, where the raw rolling deviation is
zero and gets replaced by `1e-12`), the divisor `0.015 × md` is non-zero,
so the division never divides by zero. -/
theorem cci_prefix_undefined_and_divisor_nonzero (bars : List Bar) (n : ℕ)
    (hn : 1 ≤ n) :
    (∀ i, i < n - 1 → cci bars n i = none) ∧
    (∀ i d, md bars n i = some d → (3/200 : ℚ) * d ≠ 0) := by
  constructor
  · intro i hi
    have hlt : ¬ (n ≤ i + 1 ∧ i < (bars.map (fun b => some (tp b))).length) := by
      intro hcon
      omega
    have hma : rollMeanOpt (bars.map (fun b => some (tp b))) n i = none := by
      simp only [rollMeanOpt]
      rw [if_neg hlt]
    unfold cci
    rw [hma]
    cases bars[i]? <;> cases md bars n i <;> rfl
  · intro i d hd
    unfold md at hd
    cases hmd : rollMeanOpt (devList bars n) n i with
    | none => rw [hmd] at hd; simp at hd
    | some x =>
      rw [hmd] at hd
      simp only [Option.map_some'] at hd
      have hx : 0 ≤ x := rollMeanOpt_nonneg _ n i (devList_nonneg bars n) x hmd
      have hdpos : 0 < d := by
        rw [← Option.some.inj hd]
        by_cases hx0 : x = 0
        · rw [if_pos hx0]
          norm_num [eps12]
        · rw [if_neg hx0]
          exact lt_of_le_of_ne hx (Ne.symm hx0)
      exact mul_ne_zero (by norm_num) (ne_of_gt hdpos)

/-- Witness for `cci_prefix_undefined_and_divisor_nonzero` on a flat
3-bar series with window length 2: the first bar's CCI is undefined. -/
theorem cci_prefix_undefined_witness :
    cci [⟨5, 5, 5, 5, none, none, none⟩, ⟨5, 5, 5, 5, none, none, none⟩,
      ⟨5, 5, 5, 5, none, none, none⟩] 2 0 = none :=
  (cci_prefix_undefined_and_divisor_nonzero _ 2 (by norm_num)).1 0 (by norm_num)

/-- C1: with the default parameters (doji body 0.20, CCI threshold 0,
breakout confirmation on, all four patterns enabled), the entry signal at
bar `i` is true if and only if the previous bar satisfies at least one of
doji, hammer, inverted hammer, or bullish engulfing with respect to the
bar before it, AND `macd_line[i] > macd_signal[i]`, AND `cci[i] > 0`, AND
`close[i] > high[i−1]`; any comparison involving an undefined value is
false. -/
theorem momentum_entries_spec (bars : List Bar) (i : ℕ)
    (hlen : 2 ≤ bars.length) (hi : i < bars.length) :
    momentum_entries bars (1/5) 0 true true true true true i = true ↔
    (∃ bar, bars[i]? = some bar ∧
      (∃ p, prevBar bars i = some p ∧
        (is_doji p.o p.h p.l p.c (1/5) = true ∨
         is_hammer p.o p.h p.l p.c = true ∨
         is_inverted_hammer p.o p.h p.l p.c = true ∨
         (∃ p2, prev2Bar bars i = some p2 ∧
           bullish_engulfing p2.o p2.c p.o p.c = true)) ∧
        (∃ m s, bar.macd_line = some m ∧ bar.macd_signal = some s ∧ s < m) ∧
        (∃ cv, bar.cci_v = some cv ∧ 0 < cv) ∧
        p.h < bar.c)) := by
  cases hb : bars[i]? with
  | none => simp [momentum_entries, hb]
  | some bar =>
    cases hp : prevBar bars i with
    | none => simp [momentum_entries, hb, hp]
    | some p =>
      cases hp2 : prev2Bar bars i <;>
        cases hm : bar.macd_line <;>
        cases hs : bar.macd_signal <;>
        cases hcv : bar.cci_v <;>
        simp [momentum_entries, hb, hp, hp2, hm, hs, hcv, optGT] <;>
        tauto

/-- Witness for `momentum_entries_spec`: a doji followed by a breakout bar
with bullish MACD and positive CCI fires the entry signal. -/
theorem momentum_entries_spec_witness :
    momentum_entries [⟨10, 11, 9, 10, none, none, none⟩,
      ⟨11, 12, 10, 12, some 1, some 0, some 5⟩]
      (1/5) 0 true true true true true 1 = true :=
  (momentum_entries_spec
      [⟨10, 11, 9, 10, none, none, none⟩, ⟨11, 12, 10, 12, some 1, some 0, some 5⟩]
      1 (by norm_num) (by norm_num)).mpr
    ⟨⟨11, 12, 10, 12, some 1, some 0, some 5⟩, rfl,
      ⟨10, 11, 9, 10, none, none, none⟩, rfl,
      Or.inl (by norm_num [is_doji, _range, _body]),
      ⟨1, 0, rfl, rfl, by norm_num⟩, ⟨5, rfl, by norm_num⟩, by norm_num⟩

end DayTradeBot
